import Mathlib

/-!
Verification of the ValueDrop crate (src/lib.rs): a wrapper
`AutoValueDrop<T: ValueDrop>(ManuallyDrop<T>)` that runs a consuming
finalizer `ValueDrop::drop(self)` on its contents exactly once when the
wrapper is dropped, unless the contents were extracted with
`AutoValueDrop::into_inner` first.

Shallow embedding. The single field `ManuallyDrop<T>` is modelled as
`slot : Option T`: the value `some v` is a ManuallyDrop holding the live
value `v`; the value `none` models the uninitialized garbage produced by
`core::mem::uninitialized()` once it has been swapped into the slot.
A call to the user supplied finalizer `ValueDrop::drop` is an event of
type `FinalizeCall T`; the wrapper never inspects the outcome of a
finalize call, so recording the argument of the call is a complete model
of it. `core::mem::forget(slot)` is modelled by the Boolean `forgotten`
handed to `endOfLife`, the embedding of the Rust end-of-lifetime rule:
a forgotten value never runs its Drop hook, any other value runs it once.
-/

namespace ValueDropCrate

/-- One invocation of the consuming finalizer `ValueDrop::drop`: either it
received a real value of `T`, or it was handed the uninitialized contents
produced by `core::mem::uninitialized()`. -/
inductive FinalizeCall (T : Type) where
  | onValue (v : T)
  | onUninit
deriving DecidableEq, Repr

/-- The struct `AutoValueDrop<T: ValueDrop>(ManuallyDrop<T>)` from
src/lib.rs. The field `slot` is its single `ManuallyDrop<T>` field:
`some v` holds the live value `v`, `none` holds the uninitialized data
that `core::mem::uninitialized()` produced. -/
structure AutoValueDrop (T : Type) where
  slot : Option T
deriving DecidableEq, Repr

/-- `AutoValueDrop::new(val: T) -> Self { Self(ManuallyDrop::new(val)) }`. -/
def AutoValueDrop.new {T : Type} (val : T) : AutoValueDrop T :=
  ⟨some val⟩

/-- The `impl<T: ValueDrop> Drop for AutoValueDrop<T>` hook, src/lib.rs
lines 86 to 93: `let mut val = uninitialized(); swap(&mut self.0, &mut val);
ManuallyDrop::into_inner(val).drop()`. The result is the finalize call the
hook makes together with the state of `self` afterwards (its slot now holds
the uninitialized data that was swapped in). The hook is unconditional: it
finalizes whatever the slot holds, with no check for an emptied slot. -/
def AutoValueDrop.drop {T : Type} (w : AutoValueDrop T) :
    FinalizeCall T × AutoValueDrop T :=
  match w.slot with
  | some v => (FinalizeCall.onValue v, ⟨none⟩)
  | none => (FinalizeCall.onUninit, ⟨none⟩)

/-- Result of one call to `AutoValueDrop::into_inner`, src/lib.rs lines
76 to 83: the returned `T` (`ret`), the state of the local `slot` right
after the swap (`slotAfter`), and whether `forget(slot)` ran. -/
structure IntoInnerRun (T : Type) where
  ret : Option T
  slotAfter : AutoValueDrop T
  forgotten : Bool
deriving DecidableEq, Repr

/-- `AutoValueDrop::into_inner(mut slot: Self) -> T`:
`let mut val = uninitialized(); swap(&mut slot.0, &mut val); forget(slot);
ManuallyDrop::into_inner(val)`. After the swap the local `slot` holds the
uninitialized data, the local `val` holds the former contents; `forget`
then prevents the Drop hook from ever running on `slot`. -/
def AutoValueDrop.into_inner {T : Type} (w : AutoValueDrop T) : IntoInnerRun T :=
  { ret := w.slot, slotAfter := ⟨none⟩, forgotten := true }

/-- Rust end-of-lifetime rule for one wrapper value: when
`core::mem::forget` was called on it the Drop hook does not run and no
finalize call happens; otherwise the Drop hook runs exactly once. -/
def endOfLife {T : Type} (w : AutoValueDrop T) (forgotten : Bool) :
    List (FinalizeCall T) :=
  match forgotten with
  | true => []
  | false => [(AutoValueDrop.drop w).1]

/-- Observable effect of calling `AutoValueDrop::into_inner` on a wrapper
and then letting the consumed wrapper reach the end of its lifetime: the
value returned to the caller and every finalize call that occurs, during
the call and afterwards. -/
def unwrapRun {T : Type} (w : AutoValueDrop T) :
    Option T × List (FinalizeCall T) :=
  let r := AutoValueDrop.into_inner w
  (r.ret, endOfLife r.slotAfter r.forgotten)

/-- Releasing a list of wrappers together at the end of an enclosing
scope: none of them was forgotten, so each one runs its Drop hook once. -/
def releaseScope {T : Type} : List (AutoValueDrop T) → List (FinalizeCall T)
  | [] => []
  | w :: ws => endOfLife w false ++ releaseScope ws

/-- `impl Deref`, src/lib.rs lines 95 to 101: `fn deref(&self) -> &T
{ &self.0 }`. The pair is the referent handed to the caller and the state
of the wrapper after the shared borrow; a shared borrow cannot mutate, so
the second component is the wrapper unchanged. -/
def AutoValueDrop.deref {T : Type} (w : AutoValueDrop T) :
    Option T × AutoValueDrop T :=
  (w.slot, w)

/-- `impl DerefMut`, src/lib.rs lines 103 to 108: `fn deref_mut(&mut self)
-> &mut T { &mut self.0 }`. A caller mutation `f` applied through the
returned mutable reference acts on the inner value in place and touches
nothing else. -/
def AutoValueDrop.deref_mut {T : Type} (f : T → T) (w : AutoValueDrop T) :
    AutoValueDrop T :=
  ⟨w.slot.map f⟩

/-- `derive(Clone)` on `AutoValueDrop`, src/lib.rs line 62: clones the
single field; `ManuallyDrop<T>: Clone` clones the inner `T`. The result is
a new wrapper holding a duplicate of the contents, with its own finalize
obligation. -/
def AutoValueDrop.clone {T : Type} (w : AutoValueDrop T) : AutoValueDrop T :=
  ⟨w.slot⟩

/-- `derive(PartialEq, Eq)`, src/lib.rs line 62, with the equality of `T`
passed explicitly: the derived impl compares the single field, and
`ManuallyDrop<T>` forwards equality to the inner `T`. In the source the
slot of a compared wrapper always holds a live value; the branches for an
emptied slot are unreachable there. -/
def AutoValueDrop.beqWith {T : Type} (eq : T → T → Bool)
    (a b : AutoValueDrop T) : Bool :=
  match a.slot, b.slot with
  | some x, some y => eq x y
  | none, none => true
  | _, _ => false

/-- `derive(Ord, PartialOrd)`, src/lib.rs line 62, with the comparison of
`T` passed explicitly: the derived impl compares the single field, and
`ManuallyDrop<T>` forwards comparison to the inner `T`. In the source the
slot of a compared wrapper always holds a live value; the branches for an
emptied slot are unreachable there. -/
def AutoValueDrop.cmpWith {T : Type} (cmp : T → T → Ordering)
    (a b : AutoValueDrop T) : Ordering :=
  match a.slot, b.slot with
  | some x, some y => cmp x y
  | none, none => Ordering.eq
  | none, some _ => Ordering.lt
  | some _, none => Ordering.gt

/-- `derive(Hash)`, src/lib.rs line 62, with the hash of `T` passed
explicitly: the derived impl hashes the single field, and
`ManuallyDrop<T>` forwards hashing to the inner `T`. In the source the
slot of a hashed wrapper always holds a live value; the branch for an
emptied slot is unreachable there. -/
def AutoValueDrop.hashWith {T : Type} (h : T → Nat) (w : AutoValueDrop T) : Nat :=
  match w.slot with
  | some v => h v
  | none => 0

/-- `derive(Default)`, src/lib.rs line 62, with the default value of `T`
passed explicitly: the derived impl builds
`AutoValueDrop(ManuallyDrop::new(T::default()))`. -/
def AutoValueDrop.defaultWith {T : Type} (d : T) : AutoValueDrop T :=
  ⟨some d⟩

/-- Number of live owners of a `T` held in one optional place. -/
def ownerCount {T : Type} : Option T → Nat
  | some _ => 1
  | none => 0

/-- Number of owners of a `T` that a finalize call consumed. -/
def callOwners {T : Type} : FinalizeCall T → Nat
  | FinalizeCall.onValue _ => 1
  | FinalizeCall.onUninit => 0

/-- Applying a sequence of mutations through `deref_mut` to a freshly
constructed wrapper yields the wrapper of the mutated value. -/
theorem foldl_deref_mut_new {T : Type} (fs : List (T → T)) (v : T) :
    fs.foldl (fun w f => AutoValueDrop.deref_mut f w) (AutoValueDrop.new v)
      = AutoValueDrop.new (fs.foldl (fun x f => f x) v) := by
  induction fs generalizing v with
  | nil => rfl
  | cons f fs ih =>
    simp only [List.foldl_cons]
    exact ih (f v)

/-- Releasing a scope of wrappers, each built by `new` and then mutated
through `deref_mut`, produces exactly the list of finalize calls on the
mutated values, one per wrapper, in order. -/
theorem releaseScope_built {T : Type} (items : List (T × List (T → T))) :
    releaseScope (items.map (fun p =>
        p.2.foldl (fun w f => AutoValueDrop.deref_mut f w) (AutoValueDrop.new p.1)))
      = items.map (fun p => FinalizeCall.onValue (p.2.foldl (fun x f => f x) p.1)) := by
  induction items with
  | nil => rfl
  | cons p ps ih =>
    simp only [foldl_deref_mut_new] at ih ⊢
    simp only [List.map_cons, releaseScope, endOfLife,
      List.singleton_append, ih, List.cons.injEq, and_true]
    rfl

/-- C1: for every list of wrappers, each constructed from a value and then
mutated through deref_mut, releasing them together at the end of an
enclosing scope invokes ValueDrop::drop exactly once per wrapper, none
skipped and none repeated, each call receiving the value at wrapping time
with the later mutations applied. -/
theorem C1_scope_end_finalizes_exactly_once {T : Type}
    (items : List (T × List (T → T))) :
    releaseScope (items.map (fun p =>
        p.2.foldl (fun w f => AutoValueDrop.deref_mut f w) (AutoValueDrop.new p.1)))
      = items.map (fun p => FinalizeCall.onValue (p.2.foldl (fun x f => f x) p.1))
    ∧ (releaseScope (items.map (fun p =>
        p.2.foldl (fun w f => AutoValueDrop.deref_mut f w) (AutoValueDrop.new p.1)))).length
      = items.length := by
  refine ⟨releaseScope_built items, ?_⟩
  rw [releaseScope_built items, List.length_map]

/-- C2: construct followed by unwrap is a round trip: into_inner applied
to new v returns v, and zero finalize calls occur during the whole
sequence, including after the consumed wrapper is released. -/
theorem C2_construct_unwrap_roundtrip {T : Type} (v : T) :
    (AutoValueDrop.into_inner (AutoValueDrop.new v)).ret = some v
    ∧ unwrapRun (AutoValueDrop.new v) = (some v, []) :=
  ⟨rfl, rfl⟩

/-- C3: for every live wrapper that is unwrapped, ValueDrop::drop is never
invoked for that instance, neither during into_inner nor when the consumed
wrapper reaches the end of its lifetime, and the returned value equals the
contents of the wrapper immediately prior to the unwrap. -/
theorem C3_unwrap_never_finalizes {T : Type} (w : AutoValueDrop T) (v : T)
    (h : w.slot = some v) :
    unwrapRun w = (some v, []) := by
  simp [unwrapRun, AutoValueDrop.into_inner, endOfLife, h]

/-- Witness for C3 at the live wrapper holding 3. -/
theorem C3_unwrap_never_finalizes_witness :
    (AutoValueDrop.new (3 : Nat)).slot = some 3
    ∧ unwrapRun (AutoValueDrop.new (3 : Nat)) = (some 3, []) :=
  ⟨rfl, C3_unwrap_never_finalizes (AutoValueDrop.new 3) 3 rfl⟩

/-- C4 counterexample: the end-of-scope hook does not treat the emptied
placeholder state as a no-op. Run on a wrapper whose slot holds the
uninitialized placeholder, the hook performs its destruction logic and
invokes ValueDrop::drop on the uninitialized contents, so its list of
finalize calls is not empty, contradicting the claim that the hook, upon
finding the placeholder state, does nothing. -/
theorem C4_hook_finalizes_placeholder :
    endOfLife (AutoValueDrop.mk (none : Option Nat)) false ≠ []
    ∧ (AutoValueDrop.drop (AutoValueDrop.mk (none : Option Nat))).1
        = FinalizeCall.onUninit :=
  ⟨by decide, rfl⟩

/-- C4 amended: into_inner swaps the uninitialized placeholder into the
wrapper and then suppresses the end-of-scope destruction hook entirely,
through mem::forget, so the hook never runs for the unwrapped instance and
no finalize call occurs; the hook itself contains no placeholder check. -/
theorem C4_unwrap_swaps_placeholder_and_forgets {T : Type} (v : T) :
    (AutoValueDrop.into_inner (AutoValueDrop.new v)).slotAfter
        = AutoValueDrop.mk none
    ∧ (AutoValueDrop.into_inner (AutoValueDrop.new v)).forgotten = true
    ∧ unwrapRun (AutoValueDrop.new v) = (some v, []) :=
  ⟨rfl, rfl, rfl⟩

/-- C5: neither into_inner nor the Drop hook ever duplicates the inner
value or leaves it readable after it moved out: into_inner returns exactly
the former contents and leaves the slot emptied, and both operations
preserve the total number of live owners of the value, so one owner never
becomes two. -/
theorem C5_no_duplicate_no_use_after_move {T : Type} (w : AutoValueDrop T) :
    (AutoValueDrop.into_inner w).ret = w.slot
    ∧ (AutoValueDrop.into_inner w).slotAfter.slot = none
    ∧ ownerCount (AutoValueDrop.into_inner w).ret
        + ownerCount (AutoValueDrop.into_inner w).slotAfter.slot
      = ownerCount w.slot
    ∧ callOwners (AutoValueDrop.drop w).1
        + ownerCount ((AutoValueDrop.drop w).2).slot
      = ownerCount w.slot
    ∧ ((AutoValueDrop.drop w).2).slot = none := by
  obtain ⟨s⟩ := w
  cases s <;>
    simp [AutoValueDrop.into_inner, AutoValueDrop.drop, ownerCount, callOwners]

/-- C6: deref on a freshly constructed wrapper yields exactly the value it
was constructed from and leaves the wrapper unchanged; deref_mut yields a
mutable reference aliasing that same inner value, so a caller mutation f
turns the wrapper of v into the wrapper of f v, and the identity mutation
changes nothing at all. -/
theorem C6_deref_transparent {T : Type} (v : T) (w : AutoValueDrop T)
    (f : T → T) :
    (AutoValueDrop.deref (AutoValueDrop.new v)).1 = some v
    ∧ (AutoValueDrop.deref w).2 = w
    ∧ AutoValueDrop.deref_mut f (AutoValueDrop.new v) = AutoValueDrop.new (f v)
    ∧ AutoValueDrop.deref_mut (fun x => x) w = w := by
  refine ⟨rfl, rfl, rfl, ?_⟩
  obtain ⟨s⟩ := w
  cases s <;> rfl

/-- C7: cloning a wrapper produces a new live wrapper holding a duplicate
of the inner value, and dropping the mutated clone together with the
original triggers two separate finalize calls, one per copy, each
receiving the contents of its own copy; finalizing the clone leaves the
call made for the original, and its value, untouched. -/
theorem C7_clone_independent_finalize {T : Type} (v : T) (f : T → T) :
    AutoValueDrop.clone (AutoValueDrop.new v) = AutoValueDrop.new v
    ∧ releaseScope
        [AutoValueDrop.deref_mut f (AutoValueDrop.clone (AutoValueDrop.new v)),
          AutoValueDrop.new v]
      = [FinalizeCall.onValue (f v), FinalizeCall.onValue v] :=
  ⟨rfl, rfl⟩

/-- C8: the derived capabilities forward one-for-one to the inner value:
two wrappers compare equal exactly when their inner values do, the
ordering of two wrappers is the ordering of their inner values, the hash
of a wrapper is the hash of its inner value, and the default constructed
wrapper holds the default value of T. -/
theorem C8_derived_capabilities_forward {T : Type} (eq : T → T → Bool)
    (cmp : T → T → Ordering) (h : T → Nat) (a b d : T) :
    AutoValueDrop.beqWith eq (AutoValueDrop.new a) (AutoValueDrop.new b) = eq a b
    ∧ AutoValueDrop.cmpWith cmp (AutoValueDrop.new a) (AutoValueDrop.new b) = cmp a b
    ∧ AutoValueDrop.hashWith h (AutoValueDrop.new a) = h a
    ∧ AutoValueDrop.defaultWith d = AutoValueDrop.new d :=
  ⟨rfl, rfl, rfl, rfl⟩

/-- C10: construction, unwrap and read access are deterministic: two runs
on equal input values produce wrappers with equal contents, equal
into_inner results and equal deref referents; none of the three operations
depends on anything besides its arguments. -/
theorem C10_operations_deterministic {T : Type} (v w : T) (h : v = w) :
    AutoValueDrop.new v = AutoValueDrop.new w
    ∧ AutoValueDrop.into_inner (AutoValueDrop.new v)
        = AutoValueDrop.into_inner (AutoValueDrop.new w)
    ∧ (AutoValueDrop.deref (AutoValueDrop.new v)).1
        = (AutoValueDrop.deref (AutoValueDrop.new w)).1 := by
  subst h
  exact ⟨rfl, rfl, rfl⟩

/-- Witness for C10 at the value 3. -/
theorem C10_operations_deterministic_witness :
    (3 : Nat) = 3
    ∧ (AutoValueDrop.new (3 : Nat) = AutoValueDrop.new 3
        ∧ AutoValueDrop.into_inner (AutoValueDrop.new (3 : Nat))
            = AutoValueDrop.into_inner (AutoValueDrop.new 3)
        ∧ (AutoValueDrop.deref (AutoValueDrop.new (3 : Nat))).1
            = (AutoValueDrop.deref (AutoValueDrop.new 3)).1) :=
  ⟨rfl, C10_operations_deterministic 3 3 rfl⟩

end ValueDropCrate
